import Mathlib

/-!
# test-server: a shallow embedding of `main.go`

The program is a diagnostic HTTP server.  `main` builds one `http.ServeMux` per
distinct configured port and registers five handlers on them (`echo`, `call`,
`health`, `live`, `catchall`).

The embedding has three layers.

* The parts of the Go standard library the handlers run on, each written after
  the library function it is named for: the response writer of `net/http`
  (`WriteHeader`, `Write`, the implicit 200), `ioutil.ReadAll`, the `%q` verb of
  `fmt` (`strconv.Quote`) and the pattern matching of `http.ServeMux`.
* The handlers of `main.go`, line by line.  Log output is not modelled; the
  outbound requests of `call` are recorded in a list.
* The construction of the `servers` map in `main`.

Go strings and byte slices are lists of bytes, a byte is a natural number.
-/

namespace TestServer

/-! ## Bytes, strings, constants -/

/-- A byte of a Go string or byte slice: a natural number below 256. -/
abbrev Byte := Nat

/-- The bytes of an ASCII string literal of the source. -/
def str (s : String) : List Byte := s.toList.map Char.toNat

/-- Constant `healthPath` of `main.go`. -/
def healthPath : List Byte := str "/health"

/-- Constant `echoPath` of `main.go`. -/
def echoPath : List Byte := str "/echo"

/-- Constant `livePath` of `main.go`. -/
def livePath : List Byte := str "/live"

/-- Constant `callPath` of `main.go`. -/
def callPath : List Byte := str "/call"

/-- Constant `http.StatusOK`. -/
def StatusOK : Nat := 200

/-- Constant `http.StatusInternalServerError`. -/
def StatusInternalServerError : Nat := 500

/-- Constant `http.StatusServiceUnavailable`. -/
def StatusServiceUnavailable : Nat := 503

/-! ## Requests and the response writer of `net/http` -/

/-- A Go `error`, by the text `Error()` returns (what `%v` prints). -/
abbrev GoError := List Byte

/-- A request body (`io.ReadCloser`), by what draining it yields: the bytes
delivered before the reader stops, and the error it stops with (`none` when it
stops at end of input). -/
structure ReadCloser where
  data : List Byte
  err : Option GoError

/-- The function `ioutil.ReadAll`: reads until end of input or the first error
and returns the bytes read so far together with that error; end of input is
reported as no error. -/
def ReadAll (b : ReadCloser) : List Byte × Option GoError := (b.data, b.err)

/-- An inbound `http.Request`: header set and body. -/
structure Request where
  Header : List (List Byte × List (List Byte))
  Body : ReadCloser

/-- The state of an `http.ResponseWriter` during one request: whether the status
line has been committed, the committed status, and the body bytes written. -/
structure ResponseWriter where
  wroteHeader : Bool
  status : Nat
  body : List Byte
deriving DecidableEq, Repr

/-- The writer a handler is called with: nothing committed, nothing written. -/
def ResponseWriter.fresh : ResponseWriter := ⟨false, 0, []⟩

/-- Method `WriteHeader` of the response writer: commits the status code; a call
after the status has been committed is superfluous and changes nothing. -/
def ResponseWriter.WriteHeader (w : ResponseWriter) (code : Nat) : ResponseWriter :=
  if w.wroteHeader then w else { w with wroteHeader := true, status := code }

/-- Method `Write` of the response writer: if the status has not been committed
yet it commits `StatusOK` first, then appends the bytes to the body. -/
def ResponseWriter.Write (w : ResponseWriter) (b : List Byte) : ResponseWriter :=
  let w1 := if w.wroteHeader then w else w.WriteHeader StatusOK
  { w1 with body := w1.body ++ b }

/-- The response a client receives. -/
structure Response where
  status : Nat
  body : List Byte
deriving DecidableEq, Repr

/-- What the server sends once the handler has returned: a handler that never
committed a status gets `StatusOK`. -/
def ResponseWriter.finish (w : ResponseWriter) : Response :=
  ⟨if w.wroteHeader then w.status else StatusOK, w.body⟩

/-! ## The `%q` verb: `strconv.Quote`

`fmt` formats a string or byte slice under `%q` with `strconv.AppendQuote`.  The
Unicode tables behind `strconv.IsPrint` for runes above U+00FF are not modelled:
they are the parameter `isPrintTable`. -/

/-- Constant `utf8.RuneError`. -/
def RuneError : Nat := 0xFFFD

/-- Constant `utf8.RuneSelf`. -/
def RuneSelf : Nat := 0x80

/-- Constant `utf8.MaxRune`. -/
def MaxRune : Nat := 0x10FFFF

/-- The digit table `lowerhex` of `strconv`. -/
def lowerhex (n : Nat) : Byte := (str "0123456789abcdef").getD n 0

/-- The function `utf8.DecodeRuneInString`: the first rune of `s` and its width
in bytes; an invalid or incomplete encoding gives `(RuneError, 1)`. -/
def DecodeRuneInString (s : List Byte) : Nat × Nat :=
  match s with
  | [] => (RuneError, 0)
  | s0 :: t =>
    if s0 < 0x80 then (s0, 1)
    else if s0 < 0xC2 ∨ 0xF4 < s0 then (RuneError, 1)
    else
      let sz := if s0 < 0xE0 then 2 else if s0 < 0xF0 then 3 else 4
      let lo := if s0 = 0xE0 then 0xA0 else if s0 = 0xF0 then 0x90 else 0x80
      let hi := if s0 = 0xED then 0x9F else if s0 = 0xF4 then 0x8F else 0xBF
      if t.length + 1 < sz then (RuneError, 1)
      else
        let s1 := t.getD 0 0
        if s1 < lo ∨ hi < s1 then (RuneError, 1)
        else if sz ≤ 2 then ((s0 % 32) * 64 + s1 % 64, 2)
        else
          let s2 := t.getD 1 0
          if s2 < 0x80 ∨ 0xBF < s2 then (RuneError, 1)
          else if sz ≤ 3 then ((s0 % 16) * 4096 + (s1 % 64) * 64 + s2 % 64, 3)
          else
            let s3 := t.getD 2 0
            if s3 < 0x80 ∨ 0xBF < s3 then (RuneError, 1)
            else ((s0 % 8) * 262144 + (s1 % 64) * 4096 + (s2 % 64) * 64 + s3 % 64, 4)

/-- The function `utf8.ValidRune`: in range and not a surrogate half. -/
def ValidRune (r : Nat) : Bool :=
  decide (r < 0xD800) || (decide (0xDFFF < r) && decide (r ≤ MaxRune))

/-- The function `utf8.AppendRune` on an empty buffer: the UTF-8 encoding of `r`. -/
def AppendRune (r : Nat) : List Byte :=
  if r ≤ 0x7F then [r]
  else if r ≤ 0x7FF then [0xC0 + r / 64, 0x80 + r % 64]
  else
    let r1 := if ValidRune r then r else RuneError
    if r1 ≤ 0xFFFF then [0xE0 + r1 / 4096, 0x80 + (r1 / 64) % 64, 0x80 + r1 % 64]
    else [0xF0 + r1 / 262144, 0x80 + (r1 / 4096) % 64, 0x80 + (r1 / 64) % 64, 0x80 + r1 % 64]

/-- The function `strconv.IsPrint`: Latin-1 is decided directly (space to `~`,
and U+00A1 to U+00FF without the soft hyphen), anything above by the tables. -/
def IsPrint (isPrintTable : Nat → Bool) (r : Nat) : Bool :=
  if r ≤ 0xFF then
    if 0x20 ≤ r ∧ r ≤ 0x7E then true
    else if 0xA1 ≤ r ∧ r ≤ 0xFF then decide (r ≠ 0xAD)
    else false
  else isPrintTable r

/-- The hexadecimal digits of `r` for the shifts `4 * (n - 1)`, ..., `4`, `0`:
the loop `for s := ...; s >= 0; s -= 4` of `appendEscapedRune`. -/
def hexDigits (r : Nat) : Nat → List Byte
  | 0 => []
  | n + 1 => lowerhex ((r / 16 ^ n) % 16) :: hexDigits r n

/-- The function `strconv.appendEscapedRune` on an empty buffer, with the quote
character `"`, `ASCIIonly` and `graphicOnly` both false, as `Quote` calls it. -/
def appendEscapedRune (isPrintTable : Nat → Bool) (r : Nat) : List Byte :=
  if r = 0x22 ∨ r = 0x5C then [0x5C, r]
  else if IsPrint isPrintTable r then AppendRune r
  else if r = 0x07 then str "\\a"
  else if r = 0x08 then str "\\b"
  else if r = 0x0C then str "\\f"
  else if r = 0x0A then str "\\n"
  else if r = 0x0D then str "\\r"
  else if r = 0x09 then str "\\t"
  else if r = 0x0B then str "\\v"
  else if r < 0x20 ∨ r = 0x7F then str "\\x" ++ [lowerhex (r / 16), lowerhex (r % 16)]
  else
    let r1 := if ValidRune r then r else RuneError
    if r1 < 0x10000 then str "\\u" ++ hexDigits r1 4
    else str "\\U" ++ hexDigits r1 8

/-- The loop of `strconv.appendQuotedWith`.  The first argument counts the bytes
of the current rune that are still to be stepped over (`s = s[width:]`). -/
def quoteLoop (isPrintTable : Nat → Bool) : Nat → List Byte → List Byte
  | _, [] => []
  | skip + 1, _ :: t => quoteLoop isPrintTable skip t
  | 0, s0 :: t =>
    let rw := if RuneSelf ≤ s0 then DecodeRuneInString (s0 :: t) else (s0, 1)
    if rw.2 = 1 ∧ rw.1 = RuneError then
      str "\\x" ++ [lowerhex (s0 / 16), lowerhex (s0 % 16)] ++ quoteLoop isPrintTable 0 t
    else
      appendEscapedRune isPrintTable rw.1 ++ quoteLoop isPrintTable (rw.2 - 1) t

/-- The function `strconv.Quote`, which is what `%q` prints for a string or a
byte slice: the escaped text between two double quotes. -/
def Quote (isPrintTable : Nat → Bool) (s : List Byte) : List Byte :=
  [0x22] ++ quoteLoop isPrintTable 0 s ++ [0x22]

/-! ## The handlers of `main.go` -/

/-- The `*http.Response` of a successful outbound GET, by the two things `call`
uses: the status code (logged) and the text `%v` prints for it. -/
structure HttpResponse where
  StatusCode : Nat
  formatted : List Byte

/-- What a handler reads from outside the request: the clock (`time.Now()`, in
nanoseconds), the outcome of `http.Get` for each target, and the Unicode tables
of `strconv.IsPrint`. -/
structure Env where
  now : Int
  httpGet : List Byte → Except GoError HttpResponse
  isPrintTable : Nat → Bool

/-- The handler functions a router can hold.  A closure is its code together
with the value it captured: `healthFunc healthy` is the function literal
returned by `health(healthy)`, `liveFunc live` the one returned by `live(delay)`
with the deadline `live` it computed.  `notFound` is `http.NotFoundHandler()`. -/
inductive Handler where
  | echo
  | call
  | catchall
  | healthFunc (healthy : Bool)
  | liveFunc (live : Int)
  | notFound
deriving DecidableEq, Repr

/-- The function `live` (lines 98-109): computes the deadline `time.Now().Add(delay)`
once, `now` being the clock at that moment, and returns the closure holding it. -/
def live (now : Int) (delay : Int) : Handler :=
  Handler.liveFunc (now + delay)

/-- The function literal inside `live` (lines 101-108): `live` is the captured
deadline, `now` the clock at the request; `time.Now().After(live)` is `live < now`. -/
def liveFunc (live : Int) (now : Int) (w : ResponseWriter) (_r : Request) : ResponseWriter :=
  if live < now then w.Write (str "live")
  else w.WriteHeader StatusServiceUnavailable

/-- The function `health` (lines 111-120): returns the closure holding the flag. -/
def health (healthy : Bool) : Handler :=
  Handler.healthFunc healthy

/-- The function literal inside `health` (lines 112-119). -/
def healthFunc (healthy : Bool) (w : ResponseWriter) (_r : Request) : ResponseWriter :=
  if healthy then w.Write (str "healthy")
  else w.WriteHeader StatusServiceUnavailable

/-- The function `echo` (lines 122-130).  After a failed read the status is set
and control falls through to `w.Write(body)`. -/
def echo (w : ResponseWriter) (r : Request) : ResponseWriter :=
  let read := ReadAll r.Body
  let body := read.1
  let err := read.2
  let w1 := if err ≠ none then w.WriteHeader StatusInternalServerError else w
  w1.Write body

/-- The function `call` (lines 132-150).  The second component lists the targets
of the outbound GETs issued.  `fmt.Sprintf("%s", target)` is the target's bytes;
`fmt.Fprintf(w, ...)` is one `Write` of the formatted text. -/
def call (env : Env) (w : ResponseWriter) (r : Request) : ResponseWriter × List (List Byte) :=
  let read := ReadAll r.Body
  let target := read.1
  let err := read.2
  if err ≠ none then
    (w.WriteHeader StatusInternalServerError, [])
  else
    match env.httpGet target with
    | Except.error err =>
      let w1 := w.Write (str "GET " ++ Quote env.isPrintTable target ++ str " failed: " ++ err)
      (w1.WriteHeader StatusInternalServerError, [target])
    | Except.ok resp =>
      (w.Write (str "got response: " ++ resp.formatted), [target])

/-- The function `catchall` (lines 152-159).  After a failed read the status is
set and control falls through to the `w.Write`. -/
def catchall (env : Env) (w : ResponseWriter) (r : Request) : ResponseWriter :=
  let read := ReadAll r.Body
  let body := read.1
  let err := read.2
  let w1 := if err ≠ none then w.WriteHeader StatusInternalServerError else w
  w1.Write (str "default handler echoing: " ++ Quote env.isPrintTable body)

/-- The handler `http.NotFoundHandler()`: `http.Error` with status 404. -/
def notFound (w : ResponseWriter) (_r : Request) : ResponseWriter :=
  (w.WriteHeader 404).Write (str "404 page not found\n")

/-- Method `ServeHTTP` of a handler: runs its code on the writer and the request. -/
def Handler.ServeHTTP (env : Env) (h : Handler) (w : ResponseWriter) (r : Request) :
    ResponseWriter × List (List Byte) :=
  match h with
  | Handler.echo => (TestServer.echo w r, [])
  | Handler.call => TestServer.call env w r
  | Handler.catchall => (TestServer.catchall env w r, [])
  | Handler.healthFunc healthy => (TestServer.healthFunc healthy w r, [])
  | Handler.liveFunc d => (TestServer.liveFunc d env.now w r, [])
  | Handler.notFound => (TestServer.notFound w r, [])

/-- One request served by `h`: the response the client receives. -/
def serve (env : Env) (h : Handler) (r : Request) : Response :=
  (h.ServeHTTP env ResponseWriter.fresh r).1.finish

/-- One request served by `h`: the outbound GETs the handler issued. -/
def outbound (env : Env) (h : Handler) (r : Request) : List (List Byte) :=
  (h.ServeHTTP env ResponseWriter.fresh r).2

/-! ## The router: `http.ServeMux`

Registration and the pattern match of `ServeMux`.  `handler` is the inner
function the mux applies to a path once it is in canonical form; what the mux
does with a request before that is modelled further down. -/

/-- An entry of a mux: a registered pattern and its handler. -/
structure muxEntry where
  h : Handler
  pattern : List Byte
deriving DecidableEq, Repr

/-- The type `http.ServeMux`: the table `m` of registered patterns, the entries
`es` whose pattern ends in a slash (longest pattern first), and whether some
pattern names a host. -/
structure ServeMux where
  m : List muxEntry
  es : List muxEntry
  hosts : Bool
deriving DecidableEq, Repr

/-- The function `http.NewServeMux`. -/
def NewServeMux : ServeMux := ⟨[], [], false⟩

/-- The function `appendSorted` of `net/http`: inserts `e` in front of the first
entry whose pattern is shorter. -/
def appendSorted (es : List muxEntry) (e : muxEntry) : List muxEntry :=
  es.takeWhile (fun x => decide (e.pattern.length ≤ x.pattern.length)) ++
    e :: es.dropWhile (fun x => decide (e.pattern.length ≤ x.pattern.length))

/-- Method `Handle` of `ServeMux` (to which `HandleFunc` forwards): an empty
pattern or a pattern registered before is a panic, here an error. -/
def ServeMux.Handle (mux : ServeMux) (pattern : List Byte) (handler : Handler) :
    Except String ServeMux :=
  if pattern = [] then Except.error "http: invalid pattern"
  else if mux.m.any (fun e => decide (e.pattern = pattern)) then
    Except.error "http: multiple registrations"
  else
    let e : muxEntry := ⟨handler, pattern⟩
    Except.ok
      { m := mux.m ++ [e]
        es := if pattern.getLast? = some 0x2F then appendSorted mux.es e else mux.es
        hosts := mux.hosts || decide (pattern.head? ≠ some 0x2F) }

/-- Method `match` of `ServeMux`: an exact match first, else the longest
registered pattern ending in a slash that the path begins with. -/
def ServeMux.matchPath (mux : ServeMux) (path : List Byte) : Option muxEntry :=
  match mux.m.find? (fun e => decide (e.pattern = path)) with
  | some e => some e
  | none => mux.es.find? (fun e => e.pattern.isPrefixOf path)

/-- Method `handler` of `ServeMux`: host-specific patterns take precedence when
there are any, and `NotFoundHandler` answers when nothing matches. -/
def ServeMux.handler (mux : ServeMux) (host : List Byte) (path : List Byte) : Handler :=
  let viaHost := if mux.hosts then mux.matchPath (host ++ path) else none
  match viaHost with
  | some e => e.h
  | none =>
    match mux.matchPath path with
    | some e => e.h
    | none => Handler.notFound

/-- The registered patterns of a mux. -/
def ServeMux.patterns (mux : ServeMux) : List (List Byte) :=
  mux.m.map (fun e => e.pattern)

/-! ## The router: what `ServeMux` does with a request

`ServeMux.ServeHTTP` and `ServeMux.Handler` as in `net/http`: the request target
`*` is refused, the path of a request other than CONNECT is cleaned with
`cleanPath` (`path.Clean` plus the trailing slash), a path that cleaning changes
is answered by a redirect to the cleaned path, and only a path in canonical form
reaches `handler`. -/

/-- The fields of a `url.URL` the router reads. -/
structure URL where
  Host : List Byte
  Path : List Byte
  RawQuery : List Byte
deriving DecidableEq, Repr

/-- The fields of an `http.Request` the router reads. -/
structure RouteKey where
  Method : List Byte
  RequestURI : List Byte
  Host : List Byte
  URL : URL
deriving DecidableEq, Repr

/-- What answers a request handed to a mux: the mux itself with status 400, a
`RedirectHandler(u.String(), StatusMovedPermanently)`, or a handler of the
program (`Handler.notFound` being `NotFoundHandler`). -/
inductive Answer where
  | badRequest
  | redirect (u : URL)
  | handler (h : Handler)
deriving DecidableEq, Repr

/-- The states of the loop of `path.Clean`: at the start of a path element,
inside a real element that is being copied, or on the second dot of a `..`
element. -/
inductive CleanMode where
  | elemStart
  | inElem
  | secondDot
deriving DecidableEq, Repr

/-- The backtracking of `path.Clean` at a `..` element, on the output buffer held
last byte first: `out.w--`, then `out.w--` again while `out.w > dotdot` and the
byte just dropped is not a slash. -/
def backtrack (dotdot : Nat) : List Byte → List Byte
  | [] => []
  | b :: rest => if dotdot < rest.length ∧ b ≠ 0x2F then backtrack dotdot rest else rest

/-- The loop of `path.Clean`, one byte of the path per step.  `rout` is the output
buffer, last byte first, and `dotdot` the index below which it is not cut. -/
def cleanLoop (rooted : Bool) : CleanMode → Nat → List Byte → List Byte → List Byte
  | _, _, rout, [] => rout
  | CleanMode.secondDot, dotdot, rout, _ :: t =>
    cleanLoop rooted CleanMode.elemStart dotdot rout t
  | CleanMode.inElem, dotdot, rout, c :: t =>
    if c = 0x2F then cleanLoop rooted CleanMode.elemStart dotdot rout t
    else cleanLoop rooted CleanMode.inElem dotdot (c :: rout) t
  | CleanMode.elemStart, dotdot, rout, c :: t =>
    if c = 0x2F then cleanLoop rooted CleanMode.elemStart dotdot rout t
    else if c = 0x2E ∧ (t = [] ∨ t.head? = some 0x2F) then
      cleanLoop rooted CleanMode.elemStart dotdot rout t
    else if c = 0x2E ∧ t.head? = some 0x2E ∧ (t.tail = [] ∨ t.tail.head? = some 0x2F) then
      if dotdot < rout.length then
        cleanLoop rooted CleanMode.secondDot dotdot (backtrack dotdot rout) t
      else if rooted then cleanLoop rooted CleanMode.secondDot dotdot rout t
      else
        let rout1 := if 0 < rout.length then 0x2F :: rout else rout
        cleanLoop rooted CleanMode.secondDot (rout1.length + 2) (0x2E :: 0x2E :: rout1) t
    else
      let rout1 :=
        if (rooted ∧ rout.length ≠ 1) ∨ (¬ rooted ∧ rout.length ≠ 0) then 0x2F :: rout else rout
      cleanLoop rooted CleanMode.inElem dotdot (c :: rout1) t

/-- The function `path.Clean`. -/
def Clean (path : List Byte) : List Byte :=
  if path = [] then str "."
  else
    let rooted := decide (path.head? = some 0x2F)
    let rout :=
      if rooted then cleanLoop true CleanMode.elemStart 1 [0x2F] path.tail
      else cleanLoop false CleanMode.elemStart 0 [] path
    if rout = [] then str "." else rout.reverse

/-- The function `cleanPath` of `net/http`: the canonical form of a request path,
absolute, and keeping a trailing slash. -/
def cleanPath (p : List Byte) : List Byte :=
  if p = [] then str "/"
  else
    let p1 := if p.head? ≠ some 0x2F then 0x2F :: p else p
    let np := Clean p1
    if p1.getLast? = some 0x2F ∧ np ≠ str "/" then
      if p1.length = np.length + 1 ∧ np.isPrefixOf p1 then p1 else np ++ [0x2F]
    else np

/-- The function `net.SplitHostPort`, its host part; `none` is an error. -/
def SplitHostPort (hostport : List Byte) : Option (List Byte) :=
  if ¬ (0x3A ∈ hostport) then none
  else
    let i := hostport.length - 1 - hostport.reverse.indexOf 0x3A
    if hostport.head? = some 0x5B then
      let close := hostport.indexOf 0x5D
      if close = hostport.length then none
      else if close + 1 = hostport.length then none
      else if close + 1 ≠ i then none
      else if 0x5B ∈ hostport.drop 1 then none
      else if 0x5D ∈ hostport.drop (close + 1) then none
      else some ((hostport.take close).drop 1)
    else
      let host := hostport.take i
      if 0x3A ∈ host then none
      else if 0x5B ∈ hostport then none
      else if 0x5D ∈ hostport then none
      else some host

/-- The function `stripHostPort` of `net/http`: the host without its port, or
the host unchanged when it has no port or does not parse. -/
def stripHostPort (h : List Byte) : List Byte :=
  if ¬ (0x3A ∈ h) then h
  else
    match SplitHostPort h with
    | some host => host
    | none => h

/-- Whether a pattern is registered: the test `mux.m[c]` of `net/http`. -/
def ServeMux.registered (mux : ServeMux) (c : List Byte) : Bool :=
  mux.m.any (fun e => decide (e.pattern = c))

/-- Method `shouldRedirectRLocked` of `ServeMux`: whether `path` is not
registered while `path` followed by a slash is. -/
def ServeMux.shouldRedirectRLocked (mux : ServeMux) (host path : List Byte) : Bool :=
  if mux.registered path || mux.registered (host ++ path) then false
  else if path.length = 0 then false
  else if mux.registered (path ++ [0x2F]) then decide (path.getLast? ≠ some 0x2F)
  else if mux.registered (host ++ path ++ [0x2F]) then decide (path.getLast? ≠ some 0x2F)
  else false

/-- Method `redirectToPathSlash` of `ServeMux`: the URL to redirect to, when
`shouldRedirectRLocked` says so. -/
def ServeMux.redirectToPathSlash (mux : ServeMux) (host path : List Byte) (u : URL) :
    Option URL :=
  if mux.shouldRedirectRLocked host path then some ⟨[], path ++ [0x2F], u.RawQuery⟩
  else none

/-- Method `Handler` of `ServeMux`: the handler for a request.  A CONNECT request
is matched as it stands; any other has its host stripped of the port and its
path cleaned, and is redirected to the cleaned path when that differs. -/
def ServeMux.Handler (mux : ServeMux) (r : RouteKey) : Answer :=
  if r.Method = str "CONNECT" then
    match mux.redirectToPathSlash r.URL.Host r.URL.Path r.URL with
    | some u => Answer.redirect u
    | none => Answer.handler (mux.handler r.Host r.URL.Path)
  else
    let host := stripHostPort r.Host
    let path := cleanPath r.URL.Path
    match mux.redirectToPathSlash host path r.URL with
    | some u => Answer.redirect u
    | none =>
      if path ≠ r.URL.Path then Answer.redirect ⟨[], path, r.URL.RawQuery⟩
      else Answer.handler (mux.handler host r.URL.Path)

/-- Method `ServeHTTP` of `ServeMux`: the request target `*` gets status 400
from the mux itself, any other request goes to the handler `Handler` returns. -/
def ServeMux.ServeHTTP (mux : ServeMux) (r : RouteKey) : Answer :=
  if r.RequestURI = str "*" then Answer.badRequest
  else mux.Handler r

/-- The routing fields of a request `method path` with no query, sent to `host`. -/
def routeKey (method host path : List Byte) : RouteKey :=
  ⟨method, path, host, ⟨[], path, []⟩⟩

/-! ## `main`: the `servers` map -/

/-- The type `config` of `main.go`.  Ports are `uint16` values, on which no
arithmetic is done; durations are nanoseconds. -/
structure config where
  servingPort : Nat
  healthCheckPort : Nat
  livenessPort : Nat
  healthy : Bool
  livenessDelay : Int

/-- The Go map `map[uint16]*http.ServeMux`, as a list of entries with distinct
keys.  The list order stands for no particular iteration order. -/
abbrev Servers := List (Nat × ServeMux)

/-- Map assignment `m[k] = v`: replaces the entry of an existing key, else adds one. -/
def mapSet (m : Servers) (k : Nat) (v : ServeMux) : Servers :=
  if m.any (fun e => decide (e.1 = k)) then m.map (fun e => if e.1 = k then (k, v) else e)
  else m ++ [(k, v)]

/-- Map lookup `m[k]`. -/
def mapGet (m : Servers) (k : Nat) : Option ServeMux :=
  (m.find? (fun e => decide (e.1 = k))).map (fun e => e.2)

/-- The statement `servers[port].HandleFunc(pattern, h)`: the mux the map holds
for `port` gets the registration.  A missing key is a nil mux, and a panic. -/
def handleAt (servers : Servers) (port : Nat) (pattern : List Byte) (h : Handler) :
    Except String Servers :=
  match mapGet servers port with
  | none => Except.error "nil pointer dereference"
  | some mux =>
    match mux.Handle pattern h with
    | Except.error e => Except.error e
    | Except.ok mux1 => Except.ok (mapSet servers port mux1)

/-- The loop of lines 61-63: every mux of the map gets `catchall` at `/`. -/
def wireDefault : Servers → Except String Servers
  | [] => Except.ok []
  | (port, mux) :: rest =>
    match mux.Handle (str "/") Handler.catchall with
    | Except.error e => Except.error e
    | Except.ok mux1 =>
      match wireDefault rest with
      | Except.error e => Except.error e
      | Except.ok rest1 => Except.ok ((port, mux1) :: rest1)

/-- The map literal of lines 50-54: three assignments in source order, a later
duplicate key replacing the earlier entry. -/
def newServers (cfg : config) : Servers :=
  mapSet (mapSet (mapSet [] cfg.servingPort NewServeMux) cfg.healthCheckPort NewServeMux)
    cfg.livenessPort NewServeMux

/-- Lines 50-63 of `main`: the map of routers with every handler registered.
The clock `now` is the time at which `live(cfg.livenessDelay)` is evaluated. -/
def buildServers (now : Int) (cfg : config) : Except String Servers :=
  match handleAt (newServers cfg) cfg.servingPort echoPath Handler.echo with
  | Except.error e => Except.error e
  | Except.ok s1 =>
    match handleAt s1 cfg.servingPort callPath Handler.call with
    | Except.error e => Except.error e
    | Except.ok s2 =>
      match handleAt s2 cfg.healthCheckPort healthPath (health cfg.healthy) with
      | Except.error e => Except.error e
      | Except.ok s3 =>
        match handleAt s3 cfg.livenessPort livePath (live now cfg.livenessDelay) with
        | Except.error e => Except.error e
        | Except.ok s4 => wireDefault s4

/-- The ports of the routers in a map. -/
def Servers.ports (s : Servers) : List Nat := s.map (fun e => e.1)

/-! ## The routers `main` is expected to build -/

/-- The registrations expected on the router of port `p`, in source order: the
handlers of every role configured on `p`, then `catchall` at `/`. -/
def roleEntries (now : Int) (cfg : config) (p : Nat) : List muxEntry :=
  (if p = cfg.servingPort then [⟨Handler.echo, echoPath⟩, ⟨Handler.call, callPath⟩] else []) ++
  (if p = cfg.healthCheckPort then [⟨health cfg.healthy, healthPath⟩] else []) ++
  (if p = cfg.livenessPort then [⟨live now cfg.livenessDelay, livePath⟩] else []) ++
  [⟨Handler.catchall, str "/"⟩]

/-- The router expected for port `p`. -/
def routerFor (now : Int) (cfg : config) (p : Nat) : ServeMux :=
  ⟨roleEntries now cfg p, [⟨Handler.catchall, str "/"⟩], false⟩

/-- A configuration with the health port apart from the other two. -/
def splitConfig : config := ⟨9000, 9001, 9000, true, 1000000000⟩

/-- The default configuration: every port 9000, healthy, one second of delay. -/
def defaultConfig : config := ⟨9000, 9000, 9000, true, 1000000000⟩

/-! ## Values used at concrete inputs -/

/-- An environment in which every outbound GET fails to resolve its host. -/
def unreachableEnv : Env :=
  ⟨0, fun _ => Except.error (str "dial tcp: lookup unreachable: no such host"), fun _ => false⟩

/-- A request whose body is delivered completely as `B`. -/
def requestWith (hdr : List (List Byte × List (List Byte))) (B : List Byte) : Request :=
  ⟨hdr, ⟨B, none⟩⟩

/-- A request whose body delivers `pre` and then fails with `e`. -/
def requestFailing (hdr : List (List Byte × List (List Byte))) (pre : List Byte) (e : GoError) :
    Request :=
  ⟨hdr, ⟨pre, some e⟩⟩

/-- A byte `%q` copies unchanged: printable ASCII other than `"` and `\`. -/
def plainByte (b : Nat) : Prop := 0x20 ≤ b ∧ b ≤ 0x7E ∧ b ≠ 0x22 ∧ b ≠ 0x5C

instance plainByte.decidable (b : Nat) : Decidable (plainByte b) :=
  inferInstanceAs (Decidable (0x20 ≤ b ∧ b ≤ 0x7E ∧ b ≠ 0x22 ∧ b ≠ 0x5C))

/-! ## Lemmas on the library model -/

theorem appendEscapedRune_plain (tbl : Nat → Bool) (b : Nat) (hb : plainByte b) :
    appendEscapedRune tbl b = [b] := by
  obtain ⟨h1, h2, h3, h4⟩ := hb
  have hp : IsPrint tbl b = true := by
    unfold IsPrint
    rw [if_pos (by omega), if_pos ⟨h1, h2⟩]
  unfold appendEscapedRune
  rw [if_neg (by omega), if_pos hp]
  unfold AppendRune
  rw [if_pos (by omega)]

theorem quoteLoop_plain (tbl : Nat → Bool) (B : List Nat) (hB : ∀ b ∈ B, plainByte b) :
    quoteLoop tbl 0 B = B := by
  induction B with
  | nil => rfl
  | cons b t ih =>
    have hb : plainByte b := hB b (List.mem_cons_self b t)
    have ht : quoteLoop tbl 0 t = t := ih (fun x hx => hB x (List.mem_cons_of_mem b hx))
    have hb2 := hb
    obtain ⟨h1, h2, _, _⟩ := hb2
    have hlt : ¬ RuneSelf ≤ b := by unfold RuneSelf; omega
    have hne : b ≠ RuneError := by unfold RuneError; omega
    unfold quoteLoop
    simp only [if_neg hlt]
    rw [appendEscapedRune_plain tbl b hb, ht]
    simp [hne]

theorem buildServers_eq (now : Int) (cfg : config) :
    buildServers now cfg =
      Except.ok ((newServers cfg).map (fun e => (e.1, routerFor now cfg e.1))) := by
  obtain ⟨s, h, l, hy, d⟩ := cfg
  by_cases h1 : s = h
  · subst h1
    by_cases h2 : s = l
    · subst h2
      simp [buildServers, newServers, mapSet, mapGet, handleAt, wireDefault, ServeMux.Handle,
        NewServeMux, routerFor, roleEntries, echoPath, callPath, healthPath, livePath, str,
        appendSorted, health, live]
    · have h2s : ¬ l = s := fun e => h2 e.symm
      simp [buildServers, newServers, mapSet, mapGet, handleAt, wireDefault, ServeMux.Handle,
        NewServeMux, routerFor, roleEntries, echoPath, callPath, healthPath, livePath, str,
        appendSorted, health, live, h2, h2s]
  · have h1s : ¬ h = s := fun e => h1 e.symm
    by_cases h2 : s = l
    · subst h2
      simp [buildServers, newServers, mapSet, mapGet, handleAt, wireDefault, ServeMux.Handle,
        NewServeMux, routerFor, roleEntries, echoPath, callPath, healthPath, livePath, str,
        appendSorted, health, live, h1, h1s]
    · have h2s : ¬ l = s := fun e => h2 e.symm
      by_cases h3 : h = l
      · subst h3
        simp [buildServers, newServers, mapSet, mapGet, handleAt, wireDefault, ServeMux.Handle,
          NewServeMux, routerFor, roleEntries, echoPath, callPath, healthPath, livePath, str,
          appendSorted, health, live, h1, h1s]
      · have h3s : ¬ l = h := fun e => h3 e.symm
        simp [buildServers, newServers, mapSet, mapGet, handleAt, wireDefault, ServeMux.Handle,
          NewServeMux, routerFor, roleEntries, echoPath, callPath, healthPath, livePath, str,
          appendSorted, health, live, h1, h1s, h2, h2s, h3, h3s]


theorem paths_distinct :
    echoPath ≠ callPath ∧ echoPath ≠ healthPath ∧ echoPath ≠ livePath ∧ echoPath ≠ str "/" ∧
    callPath ≠ healthPath ∧ callPath ≠ livePath ∧ callPath ≠ str "/" ∧
    healthPath ≠ livePath ∧ healthPath ≠ str "/" ∧ livePath ≠ str "/" := by
  decide

theorem em_eq (a : Prop) : a = True ∨ a = False := by
  by_cases h : a
  · exact Or.inl (eq_true h)
  · exact Or.inr (eq_false h)

theorem routerFor_handler (now : Int) (cfg : config) (p : Nat) (host P : List Byte)
    (hP : P.head? = some 0x2F) :
    (routerFor now cfg p).handler host P =
      if P = echoPath ∧ p = cfg.servingPort then Handler.echo
      else if P = callPath ∧ p = cfg.servingPort then Handler.call
      else if P = healthPath ∧ p = cfg.healthCheckPort then health cfg.healthy
      else if P = livePath ∧ p = cfg.livenessPort then live now cfg.livenessDelay
      else Handler.catchall := by
  have hslash : (str "/").isPrefixOf P = true := by
    cases P with
    | nil => simp at hP
    | cons a t =>
      simp only [List.head?_cons, Option.some.injEq] at hP
      subst hP
      simp [str, List.isPrefixOf]
  have f1 : (P = echoPath) = (echoPath = P) := propext eq_comm
  have f2 : (P = callPath) = (callPath = P) := propext eq_comm
  have f3 : (P = healthPath) = (healthPath = P) := propext eq_comm
  have f4 : (P = livePath) = (livePath = P) := propext eq_comm
  simp only [routerFor, ServeMux.handler, ServeMux.matchPath, roleEntries, f1, f2, f3, f4]
  rcases em_eq (p = cfg.servingPort) with cs | cs <;>
  rcases em_eq (p = cfg.healthCheckPort) with ch | ch <;>
  rcases em_eq (p = cfg.livenessPort) with cl | cl <;>
  simp only [cs, ch, cl, if_true, if_false, and_true, and_false, List.nil_append,
    List.cons_append, List.find?, Bool.false_eq_true] <;>
  rcases em_eq (echoPath = P) with c1 | c1 <;>
  rcases em_eq (callPath = P) with c2 | c2 <;>
  rcases em_eq (healthPath = P) with c3 | c3 <;>
  rcases em_eq (livePath = P) with c4 | c4 <;>
  rcases em_eq (str "/" = P) with c5 | c5 <;>
  simp only [c1, c2, c3, c4, c5, hslash, decide_True, decide_False, if_true, if_false]


theorem newServers_ports (cfg : config) :
    (newServers cfg).ports.Nodup ∧
    (∀ p, p ∈ (newServers cfg).ports ↔
      p = cfg.servingPort ∨ p = cfg.healthCheckPort ∨ p = cfg.livenessPort) ∧
    (newServers cfg).length =
      [cfg.servingPort, cfg.healthCheckPort, cfg.livenessPort].dedup.length := by
  obtain ⟨s, h, l, hy, d⟩ := cfg
  by_cases h1 : s = h
  · subst h1
    by_cases h2 : s = l
    · subst h2
      simp [newServers, mapSet, Servers.ports]
    · have h2s : ¬ l = s := fun e => h2 e.symm
      simp [newServers, mapSet, Servers.ports, h2, h2s]
  · have h1s : ¬ h = s := fun e => h1 e.symm
    by_cases h2 : s = l
    · subst h2
      simp [newServers, mapSet, Servers.ports, h1, h1s]
      intro p
      tauto
    · have h2s : ¬ l = s := fun e => h2 e.symm
      by_cases h3 : h = l
      · subst h3
        simp [newServers, mapSet, Servers.ports, h1, h1s]
      · have h3s : ¬ l = h := fun e => h3 e.symm
        simp [newServers, mapSet, Servers.ports, h1, h1s, h2, h2s, h3, h3s]

theorem routerFor_patterns (now : Int) (cfg : config) (p : Nat) :
    (routerFor now cfg p).patterns =
      (if p = cfg.servingPort then [echoPath, callPath] else []) ++
      (if p = cfg.healthCheckPort then [healthPath] else []) ++
      (if p = cfg.livenessPort then [livePath] else []) ++ [str "/"] := by
  simp only [routerFor, roleEntries, ServeMux.patterns]
  split_ifs <;> rfl

theorem backtrack_getLast (rout : List Nat) (h : 1 < rout.length) :
    (backtrack 1 rout).getLast? = rout.getLast? := by
  induction rout with
  | nil => simp at h
  | cons b rest ih =>
    cases rest with
    | nil => simp at h
    | cons x xs =>
      unfold backtrack
      by_cases hc : 1 < (x :: xs).length ∧ b ≠ 0x2F
      · rw [if_pos hc, ih hc.1, List.getLast?_cons_cons]
      · rw [if_neg hc, List.getLast?_cons_cons]

theorem cleanLoop_rooted_getLast (rest : List Nat) :
    ∀ (mode : CleanMode) (rout : List Nat), rout.getLast? = some 0x2F →
      (cleanLoop true mode 1 rout rest).getLast? = some 0x2F := by
  induction rest with
  | nil =>
    intro mode rout h
    cases mode <;> simpa [cleanLoop] using h
  | cons c t ih =>
    intro mode rout h
    have hne : rout ≠ [] := by
      intro hc
      subst hc
      simp at h
    have hcons : ∀ x : Nat, (x :: rout).getLast? = some 0x2F := by
      intro x
      cases rout with
      | nil => exact absurd rfl hne
      | cons y ys => rw [List.getLast?_cons_cons]; exact h
    cases mode with
    | secondDot => simpa [cleanLoop] using ih _ _ h
    | inElem =>
      unfold cleanLoop
      split_ifs
      · exact ih _ _ h
      · exact ih _ _ (hcons c)
    | elemStart =>
      unfold cleanLoop
      split_ifs <;> (try dsimp only) <;> first
        | exact ih _ _ h
        | exact ih _ _ (hcons _)
        | exact ih _ _ (by rw [backtrack_getLast rout (by assumption)]; exact h)
        | exact ih _ _ (by rw [List.getLast?_cons_cons]; exact hcons _)
        | exact absurd rfl (by assumption)

theorem Clean_head (p : List Nat) (h : p.head? = some 0x2F) :
    (Clean p).head? = some 0x2F := by
  cases p with
  | nil => simp at h
  | cons a t =>
    have hl := cleanLoop_rooted_getLast t CleanMode.elemStart [0x2F] rfl
    have hne : cleanLoop true CleanMode.elemStart 1 [0x2F] t ≠ [] := by
      intro hc
      rw [hc] at hl
      simp at hl
    simp only [Clean, h, decide_True, if_true, List.tail_cons, if_neg hne]
    simp only [reduceCtorEq, if_false]
    rw [List.head?_reverse]
    exact hl

theorem cleanPath_head (p : List Nat) : (cleanPath p).head? = some 0x2F := by
  have key : ∀ q : List Nat, q.head? = some 0x2F →
      (if q.getLast? = some 0x2F ∧ Clean q ≠ str "/" then
        if q.length = (Clean q).length + 1 ∧ (Clean q).isPrefixOf q then q else Clean q ++ [0x2F]
      else Clean q).head? = some 0x2F := by
    intro q hq
    have h2 := Clean_head q hq
    split_ifs
    · exact hq
    · cases hC : Clean q with
      | nil => rw [hC] at h2; simp at h2
      | cons x xs => rw [hC] at h2; simpa using h2
    · exact h2
  unfold cleanPath
  by_cases hp : p = []
  · simp [hp, str]
  · rw [if_neg hp]
    apply key
    split_ifs with hh
    · rfl
    · exact not_not.1 hh

theorem routerFor_registered_slash (now : Int) (cfg : config) (p : Nat) (c : List Nat)
    (hc : c ≠ []) : (routerFor now cfg p).registered (c ++ [0x2F]) = false := by
  have hlast : ∀ q : List Nat, q.getLast? ≠ some 0x2F → q ≠ c ++ [0x2F] := by
    intro q hq he
    rw [he] at hq
    simp at hq
  have hroot : str "/" ≠ c ++ [0x2F] := by
    intro he
    have hl := congrArg List.length he
    cases c with
    | nil => exact hc rfl
    | cons x xs => simp [str] at hl
  have h1 : echoPath ≠ c ++ [0x2F] := hlast _ (by decide)
  have h2 : callPath ≠ c ++ [0x2F] := hlast _ (by decide)
  have h3 : healthPath ≠ c ++ [0x2F] := hlast _ (by decide)
  have h4 : livePath ≠ c ++ [0x2F] := hlast _ (by decide)
  simp only [ServeMux.registered, routerFor, roleEntries]
  split_ifs <;> simp [h1, h2, h3, h4, hroot]

theorem routerFor_no_redirect (now : Int) (cfg : config) (p : Nat) (host path : List Nat)
    (u : URL) : (routerFor now cfg p).redirectToPathSlash host path u = none := by
  have hs : (routerFor now cfg p).shouldRedirectRLocked host path = false := by
    unfold ServeMux.shouldRedirectRLocked
    by_cases hp : path = []
    · simp [hp]
    · have hl : path.length ≠ 0 := by simpa using hp
      have hc : host ++ path ≠ [] := by simp [hp]
      rw [routerFor_registered_slash now cfg p path hp,
        routerFor_registered_slash now cfg p (host ++ path) hc]
      simp
  simp [ServeMux.redirectToPathSlash, hs]

theorem routerFor_canonical (now : Int) (cfg : config) (p : Nat) (r : RouteKey)
    (hstar : r.RequestURI ≠ str "*") (hcanon : cleanPath r.URL.Path = r.URL.Path) :
    (routerFor now cfg p).ServeHTTP r = Answer.handler
      (if r.URL.Path = echoPath ∧ p = cfg.servingPort then Handler.echo
       else if r.URL.Path = callPath ∧ p = cfg.servingPort then Handler.call
       else if r.URL.Path = healthPath ∧ p = cfg.healthCheckPort then health cfg.healthy
       else if r.URL.Path = livePath ∧ p = cfg.livenessPort then live now cfg.livenessDelay
       else Handler.catchall) := by
  have hP : r.URL.Path.head? = some 0x2F := by
    rw [← hcanon]
    exact cleanPath_head _
  unfold ServeMux.ServeHTTP ServeMux.Handler
  rw [if_neg hstar]
  by_cases hm : r.Method = str "CONNECT"
  · rw [if_pos hm, routerFor_no_redirect]
    simp only
    rw [routerFor_handler now cfg p _ _ hP]
  · rw [if_neg hm]
    simp only [routerFor_no_redirect, hcanon, ne_eq, not_true_eq_false, if_false]
    rw [routerFor_handler now cfg p _ _ hP]

theorem routerFor_not_canonical (now : Int) (cfg : config) (p : Nat) (r : RouteKey)
    (hstar : r.RequestURI ≠ str "*") (hm : r.Method ≠ str "CONNECT")
    (hcanon : cleanPath r.URL.Path ≠ r.URL.Path) :
    (routerFor now cfg p).ServeHTTP r =
      Answer.redirect ⟨[], cleanPath r.URL.Path, r.URL.RawQuery⟩ := by
  unfold ServeMux.ServeHTTP ServeMux.Handler
  rw [if_neg hstar, if_neg hm]
  simp only [routerFor_no_redirect, ne_eq, hcanon, not_false_eq_true, if_true]

/-! ## The handlers -/

/-- C1: for every byte sequence `B` and every header set, when the request body
is read successfully as `B`, the echo handler responds with status 200 and a
body that is exactly `B`. -/
theorem echo_returns_body (env : Env) (hdr : List (List Byte × List (List Byte)))
    (B : List Byte) :
    serve env Handler.echo (requestWith hdr B) = ⟨200, B⟩ := by
  simp [serve, Handler.ServeHTTP, echo, ReadAll, requestWith, ResponseWriter.Write,
    ResponseWriter.WriteHeader, ResponseWriter.fresh, ResponseWriter.finish, StatusOK]

/-- C3: the handler built by `health(healthy)` answers every request, in every
environment, with status 200 and body `healthy` when the flag is true and with
status 503 and an empty body when it is false; two requests to the same handler
get the same response whatever their headers, their bodies and the environment. -/
theorem health_fixed_response :
    (∀ env r, serve env (health true) r = ⟨200, str "healthy"⟩) ∧
    (∀ env r, serve env (health false) r = ⟨503, []⟩) ∧
    (∀ healthy env1 env2 r1 r2,
      serve env1 (health healthy) r1 = serve env2 (health healthy) r2) := by
  refine ⟨?_, ?_, ?_⟩
  · intro env r
    simp [serve, health, Handler.ServeHTTP, healthFunc, ResponseWriter.Write,
      ResponseWriter.WriteHeader, ResponseWriter.fresh, ResponseWriter.finish, StatusOK]
  · intro env r
    simp [serve, health, Handler.ServeHTTP, healthFunc,
      ResponseWriter.WriteHeader, ResponseWriter.fresh, ResponseWriter.finish,
      StatusServiceUnavailable]
  · intro healthy env1 env2 r1 r2
    simp [serve, health, Handler.ServeHTTP, healthFunc]

/-- C4: with the deadline `d = start + delay` computed when `live(delay)` is
built at time `start`, a request at a time before `d` gets status 503 and no
body, a request at a time after `d` gets status 200 and body `live`, and for
request times `t1 ≤ t2`, a 200 `live` response at `t1` implies a 200 `live`
response at `t2`. -/
theorem live_deadline_monotonic (start delay : Int) :
    (∀ env r, env.now < start + delay →
      serve env (live start delay) r = ⟨503, []⟩) ∧
    (∀ env r, start + delay < env.now →
      serve env (live start delay) r = ⟨200, str "live"⟩) ∧
    (∀ env1 env2 r1 r2, env1.now ≤ env2.now →
      serve env1 (live start delay) r1 = ⟨200, str "live"⟩ →
      serve env2 (live start delay) r2 = ⟨200, str "live"⟩) := by
  have after : ∀ (env : Env) (r : Request), start + delay < env.now →
      serve env (live start delay) r = ⟨200, str "live"⟩ := by
    intro env r h
    simp [serve, live, Handler.ServeHTTP, liveFunc, h, ResponseWriter.Write,
      ResponseWriter.WriteHeader, ResponseWriter.fresh, ResponseWriter.finish, StatusOK]
  have notAfter : ∀ (env : Env) (r : Request), ¬ start + delay < env.now →
      serve env (live start delay) r = ⟨503, []⟩ := by
    intro env r h
    simp [serve, live, Handler.ServeHTTP, liveFunc, h,
      ResponseWriter.WriteHeader, ResponseWriter.fresh, ResponseWriter.finish,
      StatusServiceUnavailable]
  refine ⟨?_, after, ?_⟩
  · intro env r h
    exact notAfter env r (by omega)
  · intro env1 env2 r1 r2 hle h1
    by_cases h : start + delay < env1.now
    · exact after env2 r2 (by omega)
    · rw [notAfter env1 r1 h] at h1
      exact absurd h1 (by decide)

/-- Witness of C4: built at time 100 with delay 50, the handler answers 503 at
time 120, 200 `live` at times 151 and 200. -/
theorem live_deadline_monotonic_witness :
    serve ⟨120, unreachableEnv.httpGet, unreachableEnv.isPrintTable⟩ (live 100 50)
        (requestWith [] []) = ⟨503, []⟩ ∧
    serve ⟨151, unreachableEnv.httpGet, unreachableEnv.isPrintTable⟩ (live 100 50)
        (requestWith [] []) = ⟨200, str "live"⟩ ∧
    serve ⟨200, unreachableEnv.httpGet, unreachableEnv.isPrintTable⟩ (live 100 50)
        (requestWith [] []) = ⟨200, str "live"⟩ :=
  ⟨(live_deadline_monotonic 100 50).1 _ _ (by decide),
   (live_deadline_monotonic 100 50).2.1 _ _ (by decide),
   (live_deadline_monotonic 100 50).2.2
     ⟨151, unreachableEnv.httpGet, unreachableEnv.isPrintTable⟩ _ (requestWith [] []) _
     (by decide) ((live_deadline_monotonic 100 50).2.1 _ _ (by decide))⟩

/-- C7, what the code does: when the read of the request body fails after
delivering the bytes `pre`, the echo handler responds with status 500 and writes
`pre` as the response body (line 129 runs after line 127); the status is 500 and
the body is empty only when nothing had been read. -/
theorem echo_read_failure_writes_bytes_read (env : Env)
    (hdr : List (List Byte × List (List Byte))) (pre : List Byte) (e : GoError) :
    serve env Handler.echo (requestFailing hdr pre e) = ⟨500, pre⟩ := by
  simp [serve, Handler.ServeHTTP, echo, ReadAll, requestFailing, ResponseWriter.Write,
    ResponseWriter.WriteHeader, ResponseWriter.fresh, ResponseWriter.finish,
    StatusInternalServerError]

/-- C6, what the code does: when the read of the request body fails after
delivering the bytes `pre`, the catch-all handler responds with status 500 and
still writes the wrapper text around the quoted `pre` (line 158 runs after line
156), so the response body is never empty. -/
theorem catchall_read_failure_writes_wrapper (env : Env)
    (hdr : List (List Byte × List (List Byte))) (pre : List Byte) (e : GoError) :
    serve env Handler.catchall (requestFailing hdr pre e) =
        ⟨500, str "default handler echoing: " ++ Quote env.isPrintTable pre⟩ ∧
      (serve env Handler.catchall (requestFailing hdr pre e)).body ≠ [] := by
  have h : serve env Handler.catchall (requestFailing hdr pre e) =
      ⟨500, str "default handler echoing: " ++ Quote env.isPrintTable pre⟩ := by
    simp [serve, Handler.ServeHTTP, catchall, ReadAll, requestFailing, ResponseWriter.Write,
      ResponseWriter.WriteHeader, ResponseWriter.fresh, ResponseWriter.finish,
      StatusInternalServerError]
  refine ⟨h, ?_⟩
  rw [h]
  simp [str]

/-- C9 fails as stated: a request to the call handler whose body read fails
(here after the bytes `http://x`, with `unexpected EOF`) gets status 500 with an
empty response body, not a non-empty diagnostic message. -/
theorem call_read_failure_body_not_diagnostic :
    ¬ ((serve unreachableEnv Handler.call
          (requestFailing [] (str "http://x") (str "unexpected EOF"))).status = 500 ∧
       (serve unreachableEnv Handler.call
          (requestFailing [] (str "http://x") (str "unexpected EOF"))).body ≠ [] ∧
       outbound unreachableEnv Handler.call
          (requestFailing [] (str "http://x") (str "unexpected EOF")) = []) := by
  decide

/-- C9 as amended: when reading the request body fails, whatever bytes were read
before the failure and whatever the error, the call handler responds with status
500 and an empty response body, and it issues no outbound GET. -/
theorem call_read_failure_empty_500 (env : Env) (r : Request) (e : GoError)
    (h : r.Body.err = some e) :
    serve env Handler.call r = ⟨500, []⟩ ∧ outbound env Handler.call r = [] := by
  simp [serve, outbound, Handler.ServeHTTP, call, ReadAll, h,
    ResponseWriter.WriteHeader, ResponseWriter.fresh, ResponseWriter.finish,
    StatusInternalServerError]

/-- Witness of C9 as amended: a body that fails with `unexpected EOF` after the
bytes `http://x`. -/
theorem call_read_failure_empty_500_witness :
    serve unreachableEnv Handler.call
        (requestFailing [] (str "http://x") (str "unexpected EOF")) = ⟨500, []⟩ ∧
      outbound unreachableEnv Handler.call
        (requestFailing [] (str "http://x") (str "unexpected EOF")) = [] :=
  call_read_failure_empty_500 unreachableEnv
    (requestFailing [] (str "http://x") (str "unexpected EOF")) (str "unexpected EOF") rfl

/-- C2, what the code does: when the outbound GET to the target `T` fails with
error `E`, the call handler writes the text `GET "T" failed: E` first, which
commits status 200, and the `WriteHeader(500)` of line 145 comes too late: the
response has status 200, not 500. -/
theorem call_get_failure_status_200 (now : Int) (tbl : Nat → Bool)
    (hdr : List (List Byte × List (List Byte))) (T : List Byte) (E : GoError) :
    serve ⟨now, fun _ => Except.error E, tbl⟩ Handler.call (requestWith hdr T) =
        ⟨200, str "GET " ++ Quote tbl T ++ str " failed: " ++ E⟩ ∧
      outbound ⟨now, fun _ => Except.error E, tbl⟩ Handler.call (requestWith hdr T) = [T] := by
  simp [serve, outbound, Handler.ServeHTTP, call, ReadAll, requestWith, ResponseWriter.Write,
    ResponseWriter.WriteHeader, ResponseWriter.fresh, ResponseWriter.finish, StatusOK]

/-- C5 fails as stated: for the one-byte body `B` holding a line feed, the
catch-all handler's response body is the wrapper around `"\n"` (a backslash and
the letter n) and does not contain `B`. -/
theorem catchall_body_not_substring :
    ¬ ((serve unreachableEnv Handler.catchall (requestWith [] [0x0A])).status = 200 ∧
       ∃ pre post : List Byte,
         (serve unreachableEnv Handler.catchall (requestWith [] [0x0A])).body =
           pre ++ [0x0A] ++ post) := by
  rintro ⟨_, pre, post, h⟩
  have hmem : (0x0A : Nat) ∈
      (serve unreachableEnv Handler.catchall (requestWith [] [0x0A])).body := by
    rw [h]
    simp
  revert hmem
  decide

/-- C5 as amended: for every byte sequence `B`, when the request body is read
successfully as `B`, the catch-all handler returns status 200 and a body made of
the fixed text `default handler echoing: ` followed by `B` in the quoted form
of `%q`; when every byte of `B` is printable ASCII other than `"` and `\`, the
quoted form is `B` between two double quotes and the response body contains `B`
as a contiguous substring. -/
theorem catchall_quotes_body (env : Env) (hdr : List (List Byte × List (List Byte)))
    (B : List Byte) :
    serve env Handler.catchall (requestWith hdr B) =
        ⟨200, str "default handler echoing: " ++ Quote env.isPrintTable B⟩ ∧
      ((∀ b ∈ B, plainByte b) →
        (serve env Handler.catchall (requestWith hdr B)).body =
          str "default handler echoing: \"" ++ B ++ str "\"") := by
  have h : serve env Handler.catchall (requestWith hdr B) =
      ⟨200, str "default handler echoing: " ++ Quote env.isPrintTable B⟩ := by
    simp [serve, Handler.ServeHTTP, catchall, ReadAll, requestWith, ResponseWriter.Write,
      ResponseWriter.WriteHeader, ResponseWriter.fresh, ResponseWriter.finish, StatusOK]
  refine ⟨h, ?_⟩
  intro hB
  rw [h]
  simp [Quote, quoteLoop_plain env.isPrintTable B hB, str]

/-- Witness of C5 as amended: the body `ab` comes back as
`default handler echoing: "ab"`. -/
theorem catchall_quotes_body_witness :
    (serve unreachableEnv Handler.catchall (requestWith [] (str "ab"))).body =
      str "default handler echoing: \"" ++ str "ab" ++ str "\"" :=
  (catchall_quotes_body unreachableEnv [] (str "ab")).2 (by decide)

/-! ## The routers -/

/-- C8: for every configuration the construction succeeds, and the map built has
exactly one router per distinct value among the three configured ports (no port
twice, the ports are the three configured ones, so between one and three
routers); the router of a port has the paths of every role configured on that
port, `/echo` and `/call` for the serving port, `/health` for the health port,
`/live` for the liveness port, and the catch-all pattern `/` that every router
gets; with the three ports equal there is one router, with all four paths. -/
theorem one_router_per_distinct_port (now : Int) (cfg : config) :
    ∃ servers, buildServers now cfg = Except.ok servers ∧
      servers.ports.Nodup ∧
      (∀ p, p ∈ servers.ports ↔
        p = cfg.servingPort ∨ p = cfg.healthCheckPort ∨ p = cfg.livenessPort) ∧
      servers.length =
        [cfg.servingPort, cfg.healthCheckPort, cfg.livenessPort].dedup.length ∧
      1 ≤ servers.length ∧ servers.length ≤ 3 ∧
      (∀ e ∈ servers, e.2.patterns =
        (if e.1 = cfg.servingPort then [echoPath, callPath] else []) ++
        (if e.1 = cfg.healthCheckPort then [healthPath] else []) ++
        (if e.1 = cfg.livenessPort then [livePath] else []) ++ [str "/"]) ∧
      (cfg.servingPort = cfg.healthCheckPort → cfg.healthCheckPort = cfg.livenessPort →
        ∃ mux, servers = [(cfg.servingPort, mux)] ∧
          mux.patterns = [echoPath, callPath, healthPath, livePath, str "/"]) := by
  obtain ⟨hnd, hmem, hlen⟩ := newServers_ports cfg
  have hports : Servers.ports ((newServers cfg).map (fun e => (e.1, routerFor now cfg e.1))) =
      (newServers cfg).ports := by
    simp [Servers.ports, List.map_map, Function.comp_def]
  refine ⟨(newServers cfg).map (fun e => (e.1, routerFor now cfg e.1)),
    buildServers_eq now cfg, ?_, ?_, ?_, ?_, ?_, ?_, ?_⟩
  · rw [hports]; exact hnd
  · rw [hports]; exact hmem
  · rw [List.length_map]; exact hlen
  · rw [List.length_map]
    have : cfg.servingPort ∈ (newServers cfg).ports := (hmem _).2 (Or.inl rfl)
    have hpos := List.length_pos_of_mem this
    simp only [Servers.ports, List.length_map] at hpos
    exact hpos
  · rw [List.length_map, hlen]
    exact le_trans (List.Sublist.length_le (List.dedup_sublist _)) (by simp)
  · intro e he
    obtain ⟨a, _, rfl⟩ := List.mem_map.1 he
    exact routerFor_patterns now cfg a.1
  · intro h1 h2
    have hs : newServers cfg = [(cfg.servingPort, NewServeMux)] := by
      simp [newServers, mapSet, ← h2, ← h1]
    refine ⟨routerFor now cfg cfg.servingPort, ?_, ?_⟩
    · rw [hs]; rfl
    · rw [routerFor_patterns, ← h2, ← h1]
      simp

/-- Witness of C8: with the default configuration (all three ports 9000) the map
is one router, on port 9000, with `/echo`, `/call`, `/health`, `/live` and `/`. -/
theorem one_router_per_distinct_port_witness :
    ∃ servers, buildServers 0 defaultConfig = Except.ok servers ∧
      ∃ mux, servers = [(9000, mux)] ∧
        mux.patterns = [echoPath, callPath, healthPath, livePath, str "/"] := by
  obtain ⟨servers, hb, _, _, _, _, _, _, hall⟩ := one_router_per_distinct_port 0 defaultConfig
  exact ⟨servers, hb, hall rfl rfl⟩

/-- C10 fails as stated: with the default configuration (every port 9000) the map
has a router on port 9000, and a GET for the path `//nothing`, which is no
role's path, is answered there by a redirect to `/nothing`: not by the
catch-all handler, and by no handler of the program. -/
theorem dispatch_uncleaned_path_redirected :
    ∃ servers, buildServers 0 defaultConfig = Except.ok servers ∧
      ∃ e ∈ servers, e.1 = 9000 ∧
        e.2.ServeHTTP (routeKey (str "GET") (str "localhost:9000") (str "//nothing")) =
          Answer.redirect ⟨[], str "/nothing", []⟩ ∧
        e.2.ServeHTTP (routeKey (str "GET") (str "localhost:9000") (str "//nothing")) ≠
          Answer.handler Handler.catchall := by
  refine ⟨_, buildServers_eq 0 defaultConfig, (9000, routerFor 0 defaultConfig 9000), ?_, rfl,
    ?_, ?_⟩
  · decide
  · decide
  · decide

/-- C10 as amended: for every configuration the construction succeeds and the map
has a router for each configured port; for every router of the map and every
request whose target is not `*` and whose path `P` is in canonical form
(`cleanPath P = P`: absolute, with no empty, `.` or `..` element), dispatch
never yields not-found: `P` is answered by a role handler exactly when `P` is
that role's path and the router's port is the port configured for that role
(`/echo` and `/call` on the serving port, `/health` on the health port, `/live`
on the liveness port), and by the catch-all handler in every other case, a role
path on a port not configured for that role included.  A request other than
CONNECT whose path is not in canonical form is answered by a redirect to
`cleanPath P`, and the request target `*` by status 400 from the router. -/
theorem dispatch_canonical_role_or_catchall (now : Int) (cfg : config) :
    ∃ servers, buildServers now cfg = Except.ok servers ∧
      (∀ p, p = cfg.servingPort ∨ p = cfg.healthCheckPort ∨ p = cfg.livenessPort →
        ∃ e ∈ servers, e.1 = p) ∧
      ∀ e ∈ servers, ∀ r : RouteKey,
        (r.RequestURI ≠ str "*" → cleanPath r.URL.Path = r.URL.Path →
          ∃ h, e.2.ServeHTTP r = Answer.handler h ∧ h ≠ Handler.notFound ∧
            (h = Handler.echo ↔ r.URL.Path = echoPath ∧ e.1 = cfg.servingPort) ∧
            (h = Handler.call ↔ r.URL.Path = callPath ∧ e.1 = cfg.servingPort) ∧
            (h = health cfg.healthy ↔
              r.URL.Path = healthPath ∧ e.1 = cfg.healthCheckPort) ∧
            (h = live now cfg.livenessDelay ↔
              r.URL.Path = livePath ∧ e.1 = cfg.livenessPort) ∧
            (h = Handler.catchall ↔
              ¬ (r.URL.Path = echoPath ∧ e.1 = cfg.servingPort) ∧
              ¬ (r.URL.Path = callPath ∧ e.1 = cfg.servingPort) ∧
              ¬ (r.URL.Path = healthPath ∧ e.1 = cfg.healthCheckPort) ∧
              ¬ (r.URL.Path = livePath ∧ e.1 = cfg.livenessPort))) ∧
        (r.RequestURI ≠ str "*" → r.Method ≠ str "CONNECT" →
          cleanPath r.URL.Path ≠ r.URL.Path →
          e.2.ServeHTTP r = Answer.redirect ⟨[], cleanPath r.URL.Path, r.URL.RawQuery⟩) ∧
        (r.RequestURI = str "*" → e.2.ServeHTTP r = Answer.badRequest) := by
  refine ⟨(newServers cfg).map (fun e => (e.1, routerFor now cfg e.1)),
    buildServers_eq now cfg, ?_, ?_⟩
  · intro p hp
    have hmem := ((newServers_ports cfg).2.1 p).2 hp
    obtain ⟨a, ha, hap⟩ := List.mem_map.1 hmem
    exact ⟨(a.1, routerFor now cfg a.1), List.mem_map.2 ⟨a, ha, rfl⟩, hap⟩
  intro e he r
  obtain ⟨a, _, rfl⟩ := List.mem_map.1 he
  refine ⟨?_, ?_, ?_⟩
  · intro hstar hcanon
    refine ⟨_, routerFor_canonical now cfg a.1 r hstar hcanon, ?_⟩
    obtain ⟨h1, h2, h3, h4, h5, h6, h7, h8, h9, h10⟩ := paths_distinct
    by_cases e1 : r.URL.Path = echoPath ∧ a.1 = cfg.servingPort
    · obtain ⟨e1a, e1b⟩ := e1
      simp [e1a, e1b, h1, h2, h3, health, live]
    by_cases e2 : r.URL.Path = callPath ∧ a.1 = cfg.servingPort
    · obtain ⟨e2a, e2b⟩ := e2
      simp [e2a, e2b, Ne.symm h1, h5, h6, health, live]
    by_cases e3 : r.URL.Path = healthPath ∧ a.1 = cfg.healthCheckPort
    · obtain ⟨e3a, e3b⟩ := e3
      simp [e3a, e3b, Ne.symm h2, Ne.symm h5, h8, health, live]
    by_cases e4 : r.URL.Path = livePath ∧ a.1 = cfg.livenessPort
    · obtain ⟨e4a, e4b⟩ := e4
      simp [e4a, e4b, Ne.symm h3, Ne.symm h6, Ne.symm h8, health, live]
    simp only [if_neg e1, if_neg e2, if_neg e3, if_neg e4]
    simp [e1, e2, e3, e4, health, live]
  · intro hstar hm hcanon
    exact routerFor_not_canonical now cfg a.1 r hstar hm hcanon
  · intro hstar
    simp [ServeMux.ServeHTTP, hstar]

/-- Witness of C10 as amended: with the health port (9001) apart from the other
two (9000) there is a router on port 9001; on every router `/health` is answered
by the health handler exactly when the router's port is 9001, `/liveness` by
the catch-all handler, and `//nothing` by a redirect to `/nothing`. -/
theorem dispatch_canonical_role_or_catchall_witness :
    ∃ servers, buildServers 0 splitConfig = Except.ok servers ∧
      (∃ e ∈ servers, e.1 = 9001) ∧
      ∀ e ∈ servers,
        (e.2.ServeHTTP (routeKey (str "GET") (str "localhost") healthPath) =
          Answer.handler (health true) ↔ e.1 = 9001) ∧
        e.2.ServeHTTP (routeKey (str "GET") (str "localhost") (str "/liveness")) =
          Answer.handler Handler.catchall ∧
        e.2.ServeHTTP (routeKey (str "GET") (str "localhost") (str "//nothing")) =
          Answer.redirect ⟨[], str "/nothing", []⟩ := by
  obtain ⟨servers, hb, hex, hall⟩ := dispatch_canonical_role_or_catchall 0 splitConfig
  refine ⟨servers, hb, hex 9001 (Or.inr (Or.inl rfl)), fun e he => ⟨?_, ?_, ?_⟩⟩
  · obtain ⟨h, hh, _, _, _, hhealth, _, _⟩ :=
      (hall e he (routeKey (str "GET") (str "localhost") healthPath)).1 (by decide) (by decide)
    rw [hh]
    constructor
    · intro heq
      exact (hhealth.1 (Answer.handler.inj heq)).2
    · intro hp
      rw [hhealth.2 ⟨rfl, hp⟩]
      rfl
  · obtain ⟨h, hh, _, _, _, _, _, hcatch⟩ :=
      (hall e he (routeKey (str "GET") (str "localhost") (str "/liveness"))).1
        (by decide) (by decide)
    rw [hh, hcatch.2 ⟨?_, ?_, ?_, ?_⟩] <;> intro hc <;> exact absurd hc.1 (by decide)
  · exact (hall e he (routeKey (str "GET") (str "localhost") (str "//nothing"))).2.1
      (by decide) (by decide) (by decide)

end TestServer
